import Mathlib

/-!
Shallow embedding of the maze exploration server (src/server/main.go).

The embedding translates the core state and operations of the Go program:
the cell/grid data model, the `Exploration` record, the `Game` state, the
maze generator `generateMaze`, the engine operations `moveExploration`,
`getMazeStatus` and the reset handler, and the display classifier
`getExplorationDisplayColorAndStyle`.

Conventions used throughout:
* Go `int` is embedded as `Int` (no claim exercises 64-bit overflow);
  Go `/` and `%` on possibly-negative operands are embedded as `Int.tdiv`
  and `Int.tmod`, which share Go's truncated-division semantics.
* Go maps are embedded as association lists with first-match lookup;
  map assignment replaces the first matching entry or appends.
  The visited-set map `map[Position]bool` is embedded as a duplicate-free
  list of positions with membership as the lookup.
* The `[][]CellType` grid is embedded as `List (List CellType)`; the
  partial indexing operation (which panics out of range in Go) is embedded
  as `cellAt?` returning `Option CellType`, with `none` standing for the
  out-of-range access that Go would abort on.
* Pointer mutation of an `Exploration` stored in the map is collapsed into
  one functional record update per return path of `moveExploration`.
* The seeded pseudo-random generator is embedded as a list of draws
  consumed left to right; `rand.Intn n` takes the next draw modulo `n`.
  Quantifying over all draw lists covers every seed.
-/

namespace Maze

/-- Cell classification of the maze grid (Go `CellType`). -/
inductive CellType
| WALL
| PATH
| START
| GOAL
deriving DecidableEq, Repr

export CellType (WALL PATH START GOAL)

/-- Integer grid coordinates (Go `Position`). -/
structure Position where
  x : Int
  y : Int
deriving DecidableEq, Repr

/-- One of the four unit direction vectors (Go `Direction`). -/
structure Direction where
  x : Int
  y : Int
deriving DecidableEq, Repr

def UP : Direction := ⟨0, -1⟩

def DOWN : Direction := ⟨0, 1⟩

def LEFT : Direction := ⟨-1, 0⟩

def RIGHT : Direction := ⟨1, 0⟩

/-- Vector addition of a direction to a position (Go `Position.Add`). -/
def Position.add (p : Position) (d : Direction) : Position := ⟨p.x + d.x, p.y + d.y⟩

/-- One exploration branch (Go `Exploration`). -/
structure Exploration where
  id : String
  startPosition : Position
  currentPosition : Position
  pathPositions : List Position
  parentID : Option String
  childIDs : List String
  isActive : Bool
  isComplete : Bool
  isDead : Bool
  foundGoal : Bool
  fixedColorIndex : Int
  generation : Int
deriving DecidableEq, Repr

/-- Constructor for an exploration (Go `NewExploration`): the path starts as
`[startPos]` and `currentPos` is appended only when it differs from a
position already in the path. -/
def NewExploration (id : String) (startPos currentPos : Position)
    (parentID : Option String) (generation : Int) (fixedColorIndex : Int) : Exploration :=
  let pathPositions := [startPos]
  let pathPositions :=
    if pathPositions.any (fun pos => decide (pos.x = currentPos.x ∧ pos.y = currentPos.y)) then
      pathPositions
    else
      pathPositions ++ [currentPos]
  { id := id
    startPosition := startPos
    currentPosition := currentPos
    pathPositions := pathPositions
    parentID := parentID
    childIDs := []
    isActive := true
    isComplete := false
    isDead := false
    foundGoal := false
    fixedColorIndex := fixedColorIndex
    generation := generation }

/-- The shared mutable state of one maze instance (Go `Game`). -/
structure Game where
  maze : List (List CellType)
  width : Int
  height : Int
  start : Position
  goal : Position
  explorations : List (String × Exploration)
  globalVisited : List Position
  goalFound : Bool
  winningExploration : Option String
  nextExplorationID : Int
  totalSteps : Int
  maxConcurrentExplorations : Int
  showOnlyWinner : Bool
deriving DecidableEq, Repr

/-- First-match lookup in the exploration map (Go `g.Explorations[name]`). -/
def lookupExp : List (String × Exploration) → String → Option Exploration
  | [], _ => none
  | (k, v) :: rest, name => if k = name then some v else lookupExp rest name

/-- Map assignment for the exploration map (Go `g.Explorations[name] = exp`):
replaces the first entry with the given key, or appends a new entry. -/
def setExp : List (String × Exploration) → String → Exploration → List (String × Exploration)
  | [], name, e => [(name, e)]
  | (k, v) :: rest, name, e =>
    if k = name then (name, e) :: rest else (k, v) :: setExp rest name e

/-- Set insertion for the visited set (Go `g.GlobalVisitedPositions[pos] = true`). -/
def insertPos (l : List Position) (p : Position) : List Position :=
  if p ∈ l then l else l ++ [p]

/-- Grid indexing (Go `g.Maze[pos.Y][pos.X]`): `none` models the
out-of-range access that would panic in Go. -/
def cellAt? (maze : List (List CellType)) (pos : Position) : Option CellType :=
  if pos.x < 0 ∨ pos.y < 0 then none
  else (maze.get? pos.y.toNat).bind (fun row => row.get? pos.x.toNat)

/-- Walkability test (Go `Game.isWalkable`): the bounds check precedes the
grid access; the `getD WALL` default on the guarded access is never taken
for a well-formed grid (see the out-of-bounds safety theorem). -/
def isWalkable (g : Game) (pos : Position) : Bool :=
  if pos.x < 0 ∨ pos.x ≥ g.width ∨ pos.y < 0 ∨ pos.y ≥ g.height then false
  else decide ((cellAt? g.maze pos).getD WALL ≠ WALL)

/-- Visited-set membership (Go `Game.isCollision`). -/
def isCollision (g : Game) (pos : Position) : Bool :=
  decide (pos ∈ g.globalVisited)

/-- The four candidate directions in the order the Go code tries them. -/
def fourDirections : List Direction := [UP, DOWN, LEFT, RIGHT]

/-- Directions whose target is walkable and unvisited (Go `Game.getValidDirections`). -/
def getValidDirections (g : Game) (pos : Position) : List Direction :=
  fourDirections.filter (fun dir =>
    isWalkable g (pos.add dir) && !(isCollision g (pos.add dir)))

/-- Goal test by coordinate comparison (Go `Game.isAtGoal`). -/
def isAtGoal (g : Game) (pos : Position) : Bool :=
  decide (pos.x = g.goal.x ∧ pos.y = g.goal.y)

/-- One entry of the available-moves list (Go `AvailableMove`). -/
structure AvailableMove where
  direction : Direction
  targetPosition : Position
deriving DecidableEq, Repr

/-- Response of the status query (Go `MazeStatusResponse`). -/
structure MazeStatusResponse where
  isExplored : Bool
  isJunction : Bool
  availableDirections : List Direction
  availableMoves : List AvailableMove
  isGoal : Bool
  goalReachedByAny : Bool
deriving DecidableEq, Repr

/-- Side-effect-free status query (Go `Game.getMazeStatus`). -/
def getMazeStatus (g : Game) (pos : Position) : MazeStatusResponse :=
  let validDirections := getValidDirections g pos
  { isExplored := decide (pos ∈ g.globalVisited)
    isJunction := validDirections.length > 1
    availableDirections := validDirections
    availableMoves := validDirections.map (fun dir => ⟨dir, pos.add dir⟩)
    isGoal := isAtGoal g pos
    goalReachedByAny := g.goalFound }

/-- Response of a move command (Go `MoveResponse`). -/
structure MoveResponse where
  success : Bool
  message : String
  newStatus : String
deriving DecidableEq, Repr

/-- The move operation (Go `Game.moveExploration`), returning the updated
game paired with the response. Each return path of the Go function maps to
one leaf below; in-place pointer mutations are collapsed into a single
record update per leaf. -/
def moveExploration (g : Game) (explorationName : String) (nextPos : Position) :
    Game × MoveResponse :=
  if !(isWalkable g nextPos) then
    (g, ⟨false, "Position is not walkable", "blocked"⟩)
  else if isCollision g nextPos then
    (g, ⟨false, "Position already explored (collision)", "collision"⟩)
  else
    match lookupExp g.explorations explorationName with
    | none =>
      let colorIndex := Int.tmod g.nextExplorationID 6
      let exploration := NewExploration explorationName nextPos nextPos none 0 colorIndex
      if isAtGoal g nextPos then
        ({ g with
            nextExplorationID := g.nextExplorationID + 1
            explorations := setExp g.explorations explorationName
              { exploration with foundGoal := true, isActive := false, isComplete := true }
            globalVisited := insertPos g.globalVisited nextPos
            goalFound := true
            winningExploration := some explorationName },
          ⟨true, "Goal reached by " ++ explorationName ++ "!", "goal_reached"⟩)
      else
        ({ g with
            nextExplorationID := g.nextExplorationID + 1
            explorations := setExp g.explorations explorationName exploration
            globalVisited := insertPos g.globalVisited nextPos },
          ⟨true, "Exploration '" ++ explorationName ++ "' started at (" ++
            toString nextPos.x ++ ", " ++ toString nextPos.y ++ ")", "continue"⟩)
    | some exploration =>
      if explorationName = "root" ∧ nextPos.x = 1 ∧ nextPos.y = 1 ∧
          exploration.pathPositions.length = 1 then
        ({ g with globalVisited := insertPos g.globalVisited nextPos },
          ⟨true, "Root exploration started at start position", "continue"⟩)
      else if isAtGoal g nextPos then
        ({ g with
            explorations := setExp g.explorations explorationName
              { exploration with
                  currentPosition := nextPos
                  pathPositions := exploration.pathPositions ++ [nextPos]
                  foundGoal := true
                  isActive := false
                  isComplete := true }
            globalVisited := insertPos g.globalVisited nextPos
            goalFound := true
            winningExploration := some explorationName },
          ⟨true, "Goal reached by " ++ explorationName ++ "!", "goal_reached"⟩)
      else
        let moved :=
          { exploration with
              currentPosition := nextPos
              pathPositions := exploration.pathPositions ++ [nextPos] }
        let g1 :=
          { g with
              explorations := setExp g.explorations explorationName moved
              globalVisited := insertPos g.globalVisited nextPos }
        let validMoves := getValidDirections g1 nextPos
        if validMoves.length = 0 then
          ({ g1 with
              explorations := setExp g1.explorations explorationName
                { moved with isDead := true, isActive := false, isComplete := true } },
            ⟨true, "Dead end reached", "dead_end"⟩)
        else if validMoves.length > 1 then
          (g1, ⟨true, "Junction reached - can branch explorations", "junction"⟩)
        else
          (g1, ⟨true, "Moved successfully", "continue"⟩)

/-- The reset operation (Go `handleReset`): clears explorations, the visited
set, counters and terminal flags; the grid is untouched. -/
def resetGame (g : Game) : Game :=
  { g with
      explorations := []
      globalVisited := []
      goalFound := false
      winningExploration := none
      nextExplorationID := 0
      totalSteps := 0
      maxConcurrentExplorations := 0
      showOnlyWinner := false }

/-- A mutating operation on the shared forest: a move command or a reset. -/
inductive Op
| move (id : String) (pos : Position)
| reset

/-- Apply one operation to the game state. -/
def applyOp (g : Game) : Op → Game
  | .move id pos => (moveExploration g id pos).1
  | .reset => resetGame g

/-- Run a sequence of operations. -/
def runOps (g : Game) (ops : List Op) : Game := ops.foldl applyOp g

/-- Run a sequence of move commands only. -/
def runMoves (g : Game) (ms : List (String × Position)) : Game :=
  ms.foldl (fun acc m => (moveExploration acc m.1 m.2).1) g

/-- A freshly constructed game around a given grid: empty exploration map,
empty visited set, zeroed counters and cleared terminal flags, as set up by
Go `NewGame` before generation fills in the grid fields. -/
def initGame (maze : List (List CellType)) (width height : Int)
    (start goal : Position) : Game :=
  { maze := maze
    width := width
    height := height
    start := start
    goal := goal
    explorations := []
    globalVisited := []
    goalFound := false
    winningExploration := none
    nextExplorationID := 0
    totalSteps := 0
    maxConcurrentExplorations := 0
    showOnlyWinner := false }

/-! ### Color classifier (Go `getChildExplorations`, `getExplorationDisplayColorAndStyle`) -/

/-- An RGBA color constant; the Go code only ever compares and hands these
to the renderer, so channels are plain naturals. -/
structure RGBA where
  r : Nat
  g : Nat
  b : Nat
  a : Nat
deriving DecidableEq, Repr

/-- Go `winnerColor` (#FF6D00). -/
def winnerColor : RGBA := ⟨255, 109, 0, 255⟩

/-- Go `deadColor` (#9E9E9E). -/
def deadColor : RGBA := ⟨158, 158, 158, 255⟩

/-- Go `segmentColors`, the six-entry palette. -/
def segmentColors : List RGBA :=
  [⟨33, 150, 243, 255⟩, ⟨156, 39, 176, 255⟩, ⟨255, 87, 34, 255⟩,
   ⟨139, 195, 74, 255⟩, ⟨0, 188, 212, 255⟩, ⟨233, 30, 99, 255⟩]

/-- Direct children of an exploration: every exploration in the forest whose
`parentID` names the given id (Go `Game.getChildExplorations`). -/
def getChildExplorations (g : Game) (explorationID : String) : List Exploration :=
  (g.explorations.filter (fun kv => decide (kv.2.parentID = some explorationID))).map
    (fun kv => kv.2)

/-- A key of the Go `childColors` map, whose keys are the strings "winner"
and "dead" or a palette index (`interface\x7b\x7d`-typed in Go). -/
inductive ChildColorKey
| winner
| dead
| idx (n : Int)
deriving DecidableEq, Repr

/-- The key the classifier inserts into `childColors` for one direct child:
its own flags and its own `FixedColorIndex`, with no recursion into the
child's children beyond the one-level grandchild emptiness test. -/
def childColorKey (g : Game) (childExp : Exploration) : ChildColorKey :=
  if childExp.foundGoal then .winner
  else if childExp.isDead ∧ (getChildExplorations g childExp.id).length = 0 then .dead
  else .idx (Int.tmod childExp.fixedColorIndex (segmentColors.length : Int))

/-- Display record: color, line weight, opacity and draw priority. The Go
float32 opacity constants 1.0, 0.5 and 0.9 are embedded as the rationals
they denote; palette indexing out of range (a Go panic) falls back to a
zero color, which never happens for the nonnegative slots the engine
creates. The Go `len(childColors) == 1` test on the key set holds exactly
when every child's key equals the first child's key, so the embedding is
independent of Go's randomized map iteration order. -/
def getExplorationDisplayColorAndStyle (g : Game) (exp : Exploration) :
    RGBA × Nat × ℚ × Nat :=
  if exp.foundGoal then (winnerColor, 3, 1, 10)
  else if exp.isDead ∧ (getChildExplorations g exp.id).length = 0 then (deadColor, 2, 1/2, 2)
  else
    match getChildExplorations g exp.id with
    | [] =>
      (segmentColors.getD (Int.tmod exp.fixedColorIndex (segmentColors.length : Int)).toNat
        ⟨0, 0, 0, 0⟩, 2, 9/10, 5)
    | c :: cs =>
      if cs.all (fun ce => decide (childColorKey g ce = childColorKey g c)) then
        match childColorKey g c with
        | .winner => (winnerColor, 3, 1, 10)
        | .dead => (deadColor, 2, 1/2, 2)
        | .idx n => (segmentColors.getD n.toNat ⟨0, 0, 0, 0⟩, 2, 9/10, 5)
      else
        (segmentColors.getD (Int.tmod exp.fixedColorIndex (segmentColors.length : Int)).toNat
          ⟨0, 0, 0, 0⟩, 2, 9/10, 5)

/-! ### Maze generator (Go `Game.generateMaze`)

The generator works on a coordinate-indexed functional grid; all reads and
writes the Go code performs are in bounds, so the function representation
and the slice representation agree cell for cell. The seeded generator is
a list of draws; `rand.Intn n` becomes `draw % n` (every value in `[0, n)`
is reachable by some draw, so quantifying over draw lists covers every
seed; Go panics on `n ≤ 0`, which the theorems below sidestep by
hypothesis where the bound could degenerate). -/

/-- The generator's grid, exactly Go's `[][]CellType`: a list of rows. -/
abbrev GGrid := List (List CellType)

/-- Read one cell of the generator grid (Go `g.Maze[y][x]`). Every read the
generator performs is at nonnegative in-bounds coordinates (each is either
behind an explicit bounds check or at coordinates at least 1 inside the
border), so the WALL defaults here never fire on the generator's inputs. -/
def gget (g : GGrid) (x y : Int) : CellType :=
  if 0 ≤ x ∧ 0 ≤ y then (g.getD y.toNat []).getD x.toNat WALL else WALL

/-- Write one cell of the generator grid (Go `g.Maze[y][x] = c`). Writes at
out-of-range indices (which Go would panic on, and which the generator
never performs) leave the grid unchanged. -/
def gset (g : GGrid) (x y : Int) (c : CellType) : GGrid :=
  if 0 ≤ x ∧ 0 ≤ y then g.set y.toNat ((g.getD y.toNat []).set x.toNat c) else g

/-- The all-WALL starting grid of `H` rows of `W` cells (Go lines 481-487). -/
def initialGrid (W H : Nat) : GGrid := List.replicate H (List.replicate W WALL)

/-- Rounding a dimension up to the next odd number (Go `if w % 2 == 0 { w++ }`). -/
def roundOdd (n : Nat) : Nat := if n % 2 = 0 then n + 1 else n

/-- The odd numbers below `n`, in increasing order: the values taken by a
Go loop `for v := 1; v < n; v += 2`. -/
def oddsUpTo (n : Nat) : List Int :=
  ((List.range n).filter (fun k => k % 2 = 1)).map (fun k => (k : Int))

/-- Row-major order of the lattice scan loops
`for y := 1; y < H-1; y += 2 \x7b for x := 1; x < W-1; x += 2 \x7d`. -/
def scanOrder (W H : Nat) : List (Int × Int) :=
  ((oddsUpTo (H - 1)).map (fun y => (oddsUpTo (W - 1)).map (fun x => (x, y)))).flatten

/-- Mark every lattice cell inside the border as PATH (Go lines 489-493). -/
def latticeInit (W H : Nat) (g : GGrid) : GGrid :=
  (scanOrder W H).foldl (fun acc c => gset acc c.1 c.2 PATH) g

/-- The 2-step jump directions of the backtracker, in Go order. -/
def carveDirections : List Direction := [⟨0, -2⟩, ⟨2, 0⟩, ⟨0, 2⟩, ⟨-2, 0⟩]

/-- Recursive-backtracker carving loop (Go lines 499-524). The Go `for`
loop runs until the stack empties; each iteration either pops or pushes a
freshly visited in-bounds cell, so it performs fewer than `2*W*H + 2`
iterations and `carveFuel` below always exceeds the true count — the
fuel-indexed recursion therefore computes exactly what the Go loop does.
All properties proved about `carve` hold for every fuel value. -/
def carve (W H : Nat) :
    Nat → GGrid → List Position → List Position → List Nat → GGrid × List Nat
  | 0, g, _, _, rng => (g, rng)
  | Nat.succ fuel, g, stack, visited, rng =>
    match stack with
    | [] => (g, rng)
    | current :: _ =>
      let neighbors := carveDirections.filterMap (fun dir =>
        let next := current.add dir
        if 1 ≤ next.x ∧ next.x < (W : Int) - 1 ∧ 1 ≤ next.y ∧ next.y < (H : Int) - 1 ∧
            ¬ (next ∈ visited) then some next else none)
      match neighbors with
      | [] => carve W H fuel g stack.tail visited rng
      | n0 :: ns =>
        let next := (n0 :: ns).getD (rng.headD 0 % (n0 :: ns).length) n0
        let wallX := current.x + (next.x - current.x) / 2
        let wallY := current.y + (next.y - current.y) / 2
        carve W H fuel (gset g wallX wallY PATH) (next :: stack) (next :: visited) rng.tail

/-- Fuel bound for the carving loop (see `carve`). -/
def carveFuel (W H : Nat) : Nat := 2 * W * H + 2

/-- The adjacency directions of the loop-opening pass, in Go order. -/
def loopAdjDirections : List Direction := [⟨0, 1⟩, ⟨1, 0⟩, ⟨0, -1⟩, ⟨-1, 0⟩]

/-- The cell one iteration of the loop-opening pass picks from two random
draws: `x := 2 + rand.Intn((W-4)/2)*2`, `y := 2 + rand.Intn((H-4)/2)*2`
(Go lines 527-528). Both coordinates are even by construction. For `W = 3`
Go computes `(3-4)/2 = 0` by truncation, matching the natural subtraction
here; `rand.Intn 0` would panic in Go, which the `%` total model ignores —
theorems that depend on the pick range assume `7 ≤ W`. -/
def pickedCell (W H : Nat) (rng : List Nat) : Int × Int :=
  (2 + ((rng.headD 0 % ((W - 4) / 2) : Nat) : Int) * 2,
   2 + ((rng.tail.headD 0 % ((H - 4) / 2) : Nat) : Int) * 2)

/-- Inner direction loop of the loop-opening pass (Go lines 530-537): try
the adjacent cells in order and convert the picked cell to PATH at the
first adjacent PATH cell, then break. -/
def loopInner (W H : Nat) (g : GGrid) (x y : Int) : List Direction → GGrid
  | [] => g
  | d :: ds =>
    let nx := x + d.x
    let ny := y + d.y
    if 0 ≤ nx ∧ nx < (W : Int) ∧ 0 ≤ ny ∧ ny < (H : Int) ∧ gget g nx ny = PATH then
      gset g x y PATH
    else
      loopInner W H g x y ds

/-- One iteration of the loop-opening pass: pick a cell from two draws and
run the adjacency loop. -/
def loopIter (W H : Nat) (g : GGrid) (rng : List Nat) : GGrid × List Nat :=
  let c := pickedCell W H rng
  (loopInner W H g c.1 c.2 loopAdjDirections, rng.tail.tail)

/-- The loop-opening pass (Go lines 526-538): exactly `W*H/30` iterations. -/
def loopOpen (W H : Nat) (g : GGrid) (rng : List Nat) : GGrid × List Nat :=
  (List.range (W * H / 30)).foldl (fun acc _ => loopIter W H acc.1 acc.2) (g, rng)

/-- Absolute value on `Int` (Go top-level `abs`). -/
def goAbs (x : Int) : Int := if x < 0 then -x else x

/-- Manhattan distance from the start cell (1,1) (Go `abs(x-1) + abs(y-1)`). -/
def scanDist (x y : Int) : Int := goAbs (x - 1) + goAbs (y - 1)

/-- One step of the goal-selection scan (Go lines 545-555): a scanned PATH
cell replaces the running best only on a strictly greater distance. -/
def scanStep (g : GGrid) (best : Int × Position) (c : Int × Int) : Int × Position :=
  if gget g c.1 c.2 = PATH then
    if scanDist c.1 c.2 > best.1 then (scanDist c.1 c.2, ⟨c.1, c.2⟩) else best
  else best

/-- Goal selection (Go lines 543-557): fold the strict-improvement step over
the row-major lattice scan, starting from distance 0 and the default cell
`(W-2, H-2)`. -/
def goalScan (W H : Nat) (g : GGrid) : Position :=
  ((scanOrder W H).foldl (scanStep g) (0, ⟨(W : Int) - 2, (H : Int) - 2⟩)).2

/-- The grid just before goal selection: dimensions rounded to odd, all
WALL, lattice cells marked PATH, backtracker carving, loop-opening pass,
and the START mark at (1,1) — Go `generateMaze` up to line 541. -/
def preGoal (w h : Nat) (rng : List Nat) : GGrid × List Nat :=
  let W := roundOdd w
  let H := roundOdd h
  let g1 := latticeInit W H (initialGrid W H)
  let pr := carve W H (carveFuel W H) g1 [⟨1, 1⟩] [⟨1, 1⟩] rng
  let pr2 := loopOpen W H pr.1 pr.2
  (gset pr2.1 1 1 START, pr2.2)

/-- Result of maze generation: the rounded dimensions, the finished grid
and the start and goal cells. -/
structure GenResult where
  width : Nat
  height : Nat
  grid : GGrid
  start : Position
  goal : Position

/-- Full maze generation (Go `Game.generateMaze`). -/
def generateMaze (w h : Nat) (rng : List Nat) : GenResult :=
  let W := roundOdd w
  let H := roundOdd h
  let pre := (preGoal w h rng).1
  let goal := goalScan W H pre
  ⟨W, H, gset pre goal.x goal.y GOAL, ⟨1, 1⟩, goal⟩

/-! ### State predicates -/

/-- Invariant: every globally visited position is walkable. It holds in the
freshly constructed game and is preserved by every operation, because the
move operation marks a position visited only after its walkability check
passed and nothing else ever adds to the visited set. -/
def VisitedOK (g : Game) : Prop :=
  ∀ q ∈ g.globalVisited, isWalkable g q = true

/-- Invariant tying the four status flags together: an exploration is
complete exactly when it is dead or found the goal, and active exactly when
it is not complete. -/
def FlagsOK (g : Game) : Prop :=
  ∀ id e, lookupExp g.explorations id = some e →
    e.isComplete = (e.isDead || e.foundGoal) ∧ e.isActive = !e.isComplete

/-- Well-formed dimensions of a grid: `H` rows of `W` cells each. -/
def GridDims (g : GGrid) (W H : Nat) : Prop :=
  g.length = H ∧ ∀ row ∈ g, row.length = W

/-- The outer border of the grid consists of WALL cells only (true of every
generated maze: carving and loop opening write strictly inside the
border). Stated over the row lists so that it is decidable on a concrete
maze. -/
def borderWall (maze : List (List CellType)) (W H : Nat) : Prop :=
  ∀ y ∈ List.range H, ∀ x ∈ List.range W,
    (x = 0 ∨ x = W - 1 ∨ y = 0 ∨ y = H - 1) →
      (maze.getD y []).getD x WALL = WALL

/-- The style the classifier returns for one resolved child-color key. -/
def keyStyle : ChildColorKey → RGBA × Nat × ℚ × Nat
  | .winner => (winnerColor, 3, 1, 10)
  | .dead => (deadColor, 2, 1/2, 2)
  | .idx n => (segmentColors.getD n.toNat ⟨0, 0, 0, 0⟩, 2, 9/10, 5)

/-! ### Concrete fixtures used by the concrete runs below -/

/-- A concrete 5-by-5 maze: a corridor (1,1)-(2,1)-(3,1) ending blind, an
isolated path cell (1,3), walls elsewhere; the border is all WALL. -/
def mazeB : List (List CellType) :=
  [[WALL, WALL, WALL, WALL, WALL],
   [WALL, PATH, PATH, PATH, WALL],
   [WALL, WALL, WALL, WALL, WALL],
   [WALL, PATH, WALL, WALL, WALL],
   [WALL, WALL, WALL, WALL, WALL]]

/-- A game on `mazeB` whose goal (3,3) is a wall cell, so no run on it can
reach the goal. -/
def gameB : Game := initGame mazeB 5 5 ⟨1, 1⟩ ⟨3, 3⟩

/-- After `move("e", (1,1))`: exploration e created at (1,1). -/
def gameE1 : Game := (moveExploration gameB "e" ⟨1, 1⟩).1

/-- After a further `move("e", (2,1))`. -/
def gameE2 : Game := (moveExploration gameE1 "e" ⟨2, 1⟩).1

/-- After a further `move("e", (3,1))`: e hits the dead end and completes. -/
def gameE3 : Game := (moveExploration gameE2 "e" ⟨3, 1⟩).1

/-- After `move("root", (1,1))` on the fresh game: root created at (1,1). -/
def rootGame : Game := (moveExploration gameB "root" ⟨1, 1⟩).1

/-- After `move("root", (3,1))` on the fresh game: root created away from
the start cell, which leaves (1,1) unvisited. -/
def sideGame : Game := (moveExploration gameB "root" ⟨3, 1⟩).1

/-- A game on `mazeB` whose goal is the isolated path cell (1,3). -/
def gameG : Game := initGame mazeB 5 5 ⟨1, 1⟩ ⟨1, 3⟩

/-- A bare exploration record for classifier fixtures. -/
def mkExp (id : String) (parent : Option String) (slot : Int) : Exploration :=
  { id := id
    startPosition := ⟨1, 1⟩
    currentPosition := ⟨1, 1⟩
    pathPositions := [⟨1, 1⟩]
    parentID := parent
    childIDs := []
    isActive := true
    isComplete := false
    isDead := false
    foundGoal := false
    fixedColorIndex := slot
    generation := 0 }

/-- A three-level forest: root (slot 0) with children c1 (slot 1) and c2
(slot 2), which have one leaf child each, l1 and l2, both of slot 3. -/
def forest3 : Game :=
  { gameB with
      explorations :=
        [("root", mkExp "root" none 0),
         ("c1", mkExp "c1" (some "root") 1),
         ("c2", mkExp "c2" (some "root") 2),
         ("l1", mkExp "l1" (some "c1") 3),
         ("l2", mkExp "l2" (some "c2") 3)] }

/-- The loop-opening counterexample grid: all WALL except one PATH cell at
(2,3), adjacent to the first picked cell (2,2). -/
def gridEx6 : GGrid := gset (initialGrid 31 31) 2 3 PATH

/-- The record exploration e holds after running the corridor of `mazeB`
into the dead end: complete, dead, inactive. -/
def expDead : Exploration :=
  { id := "e"
    startPosition := ⟨1, 1⟩
    currentPosition := ⟨3, 1⟩
    pathPositions := [⟨1, 1⟩, ⟨2, 1⟩, ⟨3, 1⟩]
    parentID := none
    childIDs := []
    isActive := false
    isComplete := true
    isDead := true
    foundGoal := false
    fixedColorIndex := 0
    generation := 0 }

/-! ## Lemmas about the exploration map and the visited set -/

theorem lookupExp_setExp_self (l : List (String × Exploration)) (k : String) (v : Exploration) :
    lookupExp (setExp l k v) k = some v := by
  induction l with
  | nil => simp [setExp, lookupExp]
  | cons kv rest ih =>
    obtain ⟨k0, v0⟩ := kv
    by_cases h : k0 = k
    · simp [setExp, h, lookupExp]
    · simp [setExp, h, lookupExp, ih]

theorem lookupExp_setExp_other (l : List (String × Exploration)) (k name : String)
    (v : Exploration) (h : name ≠ k) :
    lookupExp (setExp l k v) name = lookupExp l name := by
  have hk : (k = name) = False := by
    simp only [eq_iff_iff, iff_false]
    exact fun hh => h hh.symm
  induction l with
  | nil => simp [setExp, lookupExp, hk]
  | cons kv rest ih =>
    obtain ⟨k0, v0⟩ := kv
    by_cases h0 : k0 = k
    · subst h0
      simp [setExp, lookupExp, hk]
    · simp [setExp, h0, lookupExp, ih]

theorem lookupExp_setExp_cases (l : List (String × Exploration)) (k name : String)
    (v e : Exploration) (h : lookupExp (setExp l k v) name = some e) :
    e = v ∨ lookupExp l name = some e := by
  by_cases hk : name = k
  · subst hk
    rw [lookupExp_setExp_self] at h
    exact Or.inl (Option.some.inj h).symm
  · rw [lookupExp_setExp_other _ _ _ _ hk] at h
    exact Or.inr h

theorem mem_insertPos (l : List Position) (p q : Position) :
    q ∈ insertPos l p ↔ q ∈ l ∨ q = p := by
  unfold insertPos
  by_cases h : p ∈ l
  · simp only [h, if_true]
    constructor
    · exact Or.inl
    · rintro (hq | rfl)
      · exact hq
      · exact h
  · simp [h, List.mem_append]

theorem self_mem_insertPos (l : List Position) (p : Position) : p ∈ insertPos l p := by
  rw [mem_insertPos]
  exact Or.inr rfl

/-! ## Shape lemmas about the move operation -/

theorem move_static (g : Game) (id : String) (p : Position) :
    (moveExploration g id p).1.maze = g.maze ∧
    (moveExploration g id p).1.width = g.width ∧
    (moveExploration g id p).1.height = g.height ∧
    (moveExploration g id p).1.start = g.start ∧
    (moveExploration g id p).1.goal = g.goal := by
  unfold moveExploration
  dsimp only
  repeat' split
  all_goals simp

theorem move_visited_mono (g : Game) (id : String) (p q : Position)
    (h : q ∈ g.globalVisited) : q ∈ (moveExploration g id p).1.globalVisited := by
  unfold moveExploration
  dsimp only
  repeat' split
  all_goals simp [mem_insertPos, h]

theorem move_visited_sub (g : Game) (id : String) (p q : Position)
    (h : q ∈ (moveExploration g id p).1.globalVisited) :
    q ∈ g.globalVisited ∨ (q = p ∧ isWalkable g p = true) := by
  revert h
  unfold moveExploration
  dsimp only
  repeat' split
  all_goals intro h
  all_goals simp only [mem_insertPos] at h
  all_goals try exact Or.inl h
  all_goals rcases h with h | rfl
  all_goals try exact Or.inl h
  all_goals refine Or.inr ⟨rfl, ?_⟩
  all_goals simp_all

theorem move_collision (g : Game) (id : String) (p : Position)
    (hw : isWalkable g p = true) (hv : p ∈ g.globalVisited) :
    moveExploration g id p =
      (g, ⟨false, "Position already explored (collision)", "collision"⟩) := by
  have hc : isCollision g p = true := by simp [isCollision, hv]
  unfold moveExploration
  simp [hw, hc]

/-! ## The visited-implies-walkable invariant and its preservation -/

theorem isWalkable_congr (g g2 : Game) (h1 : g2.maze = g.maze) (h2 : g2.width = g.width)
    (h3 : g2.height = g.height) (p : Position) : isWalkable g2 p = isWalkable g p := by
  simp [isWalkable, h1, h2, h3]

theorem visitedOK_move (g : Game) (id : String) (p : Position) (h : VisitedOK g) :
    VisitedOK (moveExploration g id p).1 := by
  intro q hq
  obtain ⟨hm, hw, hh, -, -⟩ := move_static g id p
  rw [isWalkable_congr g _ hm hw hh]
  rcases move_visited_sub g id p q hq with h1 | ⟨rfl, hwp⟩
  · exact h q h1
  · exact hwp

theorem visitedOK_reset (g : Game) : VisitedOK (resetGame g) := by
  intro q hq
  simp [resetGame] at hq

theorem visitedOK_applyOp (g : Game) (op : Op) (h : VisitedOK g) :
    VisitedOK (applyOp g op) := by
  cases op with
  | move id pos => exact visitedOK_move g id pos h
  | reset => exact visitedOK_reset g

theorem visitedOK_runOps (g : Game) (ops : List Op) (h : VisitedOK g) :
    VisitedOK (runOps g ops) := by
  induction ops generalizing g with
  | nil => exact h
  | cons op rest ih => exact ih (applyOp g op) (visitedOK_applyOp g op h)

theorem visitedOK_initGame (maze : List (List CellType)) (W H : Int) (s gl : Position) :
    VisitedOK (initGame maze W H s gl) := by
  intro q hq
  simp [initGame] at hq

theorem visitedOK_runMoves (g : Game) (ms : List (String × Position)) (h : VisitedOK g) :
    VisitedOK (runMoves g ms) := by
  induction ms generalizing g with
  | nil => exact h
  | cons m rest ih => exact ih (moveExploration g m.1 m.2).1 (visitedOK_move g m.1 m.2 h)

theorem visited_mono_runMoves (g : Game) (ms : List (String × Position)) (q : Position)
    (h : q ∈ g.globalVisited) : q ∈ (runMoves g ms).globalVisited := by
  induction ms generalizing g with
  | nil => exact h
  | cons m rest ih => exact ih (moveExploration g m.1 m.2).1 (move_visited_mono g m.1 m.2 q h)

/-! ## Claim theorems: move preconditions and the collision invariant -/

/-- Claim C1: in every forest state reachable from a fresh game by moves
and resets, a position in GlobalVisited stays visited across every further
sequence of moves (moves only ever add, never remove), and a move by any
exploration id targeting it returns outcome collision and leaves the whole
state unchanged. -/
theorem collision_invariant (maze : List (List CellType)) (W H : Int) (s gl : Position)
    (ops : List Op) (ms : List (String × Position)) (id : String) (p : Position)
    (hp : p ∈ (runOps (initGame maze W H s gl) ops).globalVisited) :
    p ∈ (runMoves (runOps (initGame maze W H s gl) ops) ms).globalVisited ∧
    moveExploration (runMoves (runOps (initGame maze W H s gl) ops) ms) id p =
      (runMoves (runOps (initGame maze W H s gl) ops) ms,
       ⟨false, "Position already explored (collision)", "collision"⟩) := by
  have hOK : VisitedOK (runOps (initGame maze W H s gl) ops) :=
    visitedOK_runOps _ ops (visitedOK_initGame maze W H s gl)
  have hOK2 : VisitedOK (runMoves (runOps (initGame maze W H s gl) ops) ms) :=
    visitedOK_runMoves _ ms hOK
  have hmem : p ∈ (runMoves (runOps (initGame maze W H s gl) ops) ms).globalVisited :=
    visited_mono_runMoves _ ms p hp
  exact ⟨hmem, move_collision _ id p (hOK2 p hmem) hmem⟩

/-- Witness for the collision invariant at a concrete reachable state:
after root is created at (1,1) and e moves to (2,1), a move by the fresh
id z targeting (1,1) collides and changes nothing. -/
theorem collision_invariant_witness :
    (⟨1, 1⟩ : Position) ∈
      (runMoves (runOps (initGame mazeB 5 5 ⟨1, 1⟩ ⟨3, 3⟩) [Op.move "root" ⟨1, 1⟩])
        [("e", ⟨2, 1⟩)]).globalVisited ∧
    moveExploration
        (runMoves (runOps (initGame mazeB 5 5 ⟨1, 1⟩ ⟨3, 3⟩) [Op.move "root" ⟨1, 1⟩])
          [("e", ⟨2, 1⟩)]) "z" ⟨1, 1⟩ =
      (runMoves (runOps (initGame mazeB 5 5 ⟨1, 1⟩ ⟨3, 3⟩) [Op.move "root" ⟨1, 1⟩])
        [("e", ⟨2, 1⟩)],
       ⟨false, "Position already explored (collision)", "collision"⟩) :=
  collision_invariant mazeB 5 5 ⟨1, 1⟩ ⟨3, 3⟩ [Op.move "root" ⟨1, 1⟩] [("e", ⟨2, 1⟩)]
    "z" ⟨1, 1⟩ (by decide)

/-- Claim C3: a move to a non-walkable target returns blocked and changes
no component of the state, with no reference to the visited set (so the
walkable check precedes the visited check); a move to a walkable but
already visited target returns collision and changes no component. -/
theorem move_blocked_collision_no_change (g : Game) (id : String) (p : Position) :
    (isWalkable g p = false →
      moveExploration g id p = (g, ⟨false, "Position is not walkable", "blocked"⟩)) ∧
    (isWalkable g p = true → isCollision g p = true →
      moveExploration g id p =
        (g, ⟨false, "Position already explored (collision)", "collision"⟩)) := by
  constructor
  · intro hw
    unfold moveExploration
    simp [hw]
  · intro hw hc
    unfold moveExploration
    simp [hw, hc]

/-- Witness for the blocked and collision branches at concrete inputs:
the wall corner (0,0) blocks, and the visited start of rootGame collides. -/
theorem move_blocked_collision_no_change_witness :
    moveExploration gameB "x" ⟨0, 0⟩ =
      (gameB, ⟨false, "Position is not walkable", "blocked"⟩) ∧
    moveExploration rootGame "x" ⟨1, 1⟩ =
      (rootGame, ⟨false, "Position already explored (collision)", "collision"⟩) :=
  ⟨(move_blocked_collision_no_change gameB "x" ⟨0, 0⟩).1 (by decide),
   (move_blocked_collision_no_change rootGame "x" ⟨1, 1⟩).2 (by decide) (by decide)⟩

/-- Claim C4: a move with an unknown id to a walkable, unvisited target
creates an exploration with start = current = target, path exactly the
one-element sequence of the target, generation 0, no parent, and color
slot equal to the creation counter modulo the palette size 6; it
increments the counter, marks the target visited, and when the target is
the goal immediately sets the victory flags on the exploration and the
forest and answers goal_reached, else answers continue with fresh flags. -/
theorem move_new_exploration (g : Game) (id : String) (p : Position)
    (hw : isWalkable g p = true) (hc : isCollision g p = false)
    (hl : lookupExp g.explorations id = none) :
    segmentColors.length = 6 ∧
    ∃ e, lookupExp (moveExploration g id p).1.explorations id = some e ∧
      e.startPosition = p ∧ e.currentPosition = p ∧ e.pathPositions = [p] ∧
      e.generation = 0 ∧ e.parentID = none ∧
      e.fixedColorIndex = Int.tmod g.nextExplorationID 6 ∧
      (moveExploration g id p).1.nextExplorationID = g.nextExplorationID + 1 ∧
      p ∈ (moveExploration g id p).1.globalVisited ∧
      (isAtGoal g p = true →
        e.foundGoal = true ∧ e.isComplete = true ∧ e.isActive = false ∧
        (moveExploration g id p).1.goalFound = true ∧
        (moveExploration g id p).1.winningExploration = some id ∧
        (moveExploration g id p).2.newStatus = "goal_reached") ∧
      (isAtGoal g p = false →
        e.foundGoal = false ∧ e.isComplete = false ∧ e.isActive = true ∧ e.isDead = false ∧
        (moveExploration g id p).2.newStatus = "continue") := by
  refine ⟨rfl, ?_⟩
  by_cases hg : isAtGoal g p = true
  · have hm : moveExploration g id p =
        ({ g with
            nextExplorationID := g.nextExplorationID + 1
            explorations := setExp g.explorations id
              { NewExploration id p p none 0 (Int.tmod g.nextExplorationID 6) with
                  foundGoal := true, isActive := false, isComplete := true }
            globalVisited := insertPos g.globalVisited p
            goalFound := true
            winningExploration := some id },
         ⟨true, "Goal reached by " ++ id ++ "!", "goal_reached"⟩) := by
      unfold moveExploration
      simp [hw, hc, hl, hg]
    rw [hm]
    refine ⟨_, lookupExp_setExp_self _ _ _, ?_⟩
    simp [NewExploration, self_mem_insertPos, hg]
  · have hm : moveExploration g id p =
        ({ g with
            nextExplorationID := g.nextExplorationID + 1
            explorations := setExp g.explorations id
              (NewExploration id p p none 0 (Int.tmod g.nextExplorationID 6))
            globalVisited := insertPos g.globalVisited p },
         ⟨true, "Exploration '" ++ id ++ "' started at (" ++
           toString p.x ++ ", " ++ toString p.y ++ ")", "continue"⟩) := by
      unfold moveExploration
      simp [hw, hc, hl, hg]
    rw [hm]
    refine ⟨_, lookupExp_setExp_self _ _ _, ?_⟩
    simp [NewExploration, self_mem_insertPos, hg]

/-- Witness for the creation branch at a concrete input: the fresh id a is
created directly on the goal cell (1,3) of gameG and wins immediately. -/
theorem move_new_exploration_witness :
    segmentColors.length = 6 ∧
    ∃ e, lookupExp (moveExploration gameG "a" ⟨1, 3⟩).1.explorations "a" = some e ∧
      e.startPosition = ⟨1, 3⟩ ∧ e.currentPosition = ⟨1, 3⟩ ∧ e.pathPositions = [⟨1, 3⟩] ∧
      e.generation = 0 ∧ e.parentID = none ∧
      e.fixedColorIndex = Int.tmod gameG.nextExplorationID 6 ∧
      (moveExploration gameG "a" ⟨1, 3⟩).1.nextExplorationID = gameG.nextExplorationID + 1 ∧
      (⟨1, 3⟩ : Position) ∈ (moveExploration gameG "a" ⟨1, 3⟩).1.globalVisited ∧
      (isAtGoal gameG ⟨1, 3⟩ = true →
        e.foundGoal = true ∧ e.isComplete = true ∧ e.isActive = false ∧
        (moveExploration gameG "a" ⟨1, 3⟩).1.goalFound = true ∧
        (moveExploration gameG "a" ⟨1, 3⟩).1.winningExploration = some "a" ∧
        (moveExploration gameG "a" ⟨1, 3⟩).2.newStatus = "goal_reached") ∧
      (isAtGoal gameG ⟨1, 3⟩ = false →
        e.foundGoal = false ∧ e.isComplete = false ∧ e.isActive = true ∧ e.isDead = false ∧
        (moveExploration gameG "a" ⟨1, 3⟩).2.newStatus = "continue") :=
  move_new_exploration gameG "a" ⟨1, 3⟩ (by decide) (by decide) (by decide)

/-! ## The status-flag invariant -/

theorem move_lookup_cases (g : Game) (gid : String) (p : Position) (id : String)
    (e : Exploration)
    (hl : lookupExp (moveExploration g gid p).1.explorations id = some e) :
    lookupExp g.explorations id = some e ∨
    (e.isComplete = (e.isDead || e.foundGoal) ∧ e.isActive = !e.isComplete) ∨
    (∃ e0, lookupExp g.explorations gid = some e0 ∧
      e = { e0 with currentPosition := p, pathPositions := e0.pathPositions ++ [p] }) := by
  revert hl
  unfold moveExploration
  dsimp only
  repeat' split
  all_goals intro hl
  all_goals
    first
      | exact Or.inl hl
      | (rcases lookupExp_setExp_cases _ _ _ _ _ hl with rfl | hold
         · first
             | (refine Or.inr (Or.inl ?_)
                simp [NewExploration]
                done)
             | exact Or.inr (Or.inr ⟨_, by assumption, rfl⟩)
         · first
             | exact Or.inl hold
             | (rcases lookupExp_setExp_cases _ _ _ _ _ hold with rfl | hold2
                · exact Or.inr (Or.inr ⟨_, by assumption, rfl⟩)
                · exact Or.inl hold2))

theorem flagsOK_move (g : Game) (gid : String) (p : Position) (h : FlagsOK g) :
    FlagsOK (moveExploration g gid p).1 := by
  intro id e hl
  rcases move_lookup_cases g gid p id e hl with hold | hnew | ⟨e0, he0, rfl⟩
  · exact h id e hold
  · exact hnew
  · exact h gid e0 he0

theorem flagsOK_reset (g : Game) : FlagsOK (resetGame g) := by
  intro id e hl
  simp [resetGame, lookupExp] at hl

theorem flagsOK_initGame (maze : List (List CellType)) (W H : Int) (s gl : Position) :
    FlagsOK (initGame maze W H s gl) := by
  intro id e hl
  simp [initGame, lookupExp] at hl

theorem flagsOK_runOps (g : Game) (ops : List Op) (h : FlagsOK g) :
    FlagsOK (runOps g ops) := by
  induction ops generalizing g with
  | nil => exact h
  | cons op rest ih =>
    cases op with
    | move id pos => exact ih (moveExploration g id pos).1 (flagsOK_move g id pos h)
    | reset => exact ih (resetGame g) (flagsOK_reset g)

/-- Claim C10: for every exploration present in a forest reachable from the
fresh game by any sequence of moves and resets, isComplete holds exactly
when isDead or foundGoal does, and isActive exactly when isComplete does
not; every operation preserves this constraint. -/
theorem flags_invariant (maze : List (List CellType)) (W H : Int) (s gl : Position)
    (ops : List Op) (id : String) (e : Exploration)
    (h : lookupExp (runOps (initGame maze W H s gl) ops).explorations id = some e) :
    e.isComplete = (e.isDead || e.foundGoal) ∧ e.isActive = !e.isComplete :=
  flagsOK_runOps _ ops (flagsOK_initGame maze W H s gl) id e h

/-- Witness for the flag invariant at a concrete reachable state: after
running e down the corridor into the dead end, e is complete, dead, not
active, and the invariant holds. -/
theorem flags_invariant_witness :
    lookupExp
        (runOps (initGame mazeB 5 5 ⟨1, 1⟩ ⟨3, 3⟩)
          [Op.move "e" ⟨1, 1⟩, Op.move "e" ⟨2, 1⟩, Op.move "e" ⟨3, 1⟩]).explorations "e" =
      some expDead ∧
    (expDead.isComplete = (expDead.isDead || expDead.foundGoal) ∧
      expDead.isActive = !expDead.isComplete) :=
  ⟨by decide,
   flags_invariant mazeB 5 5 ⟨1, 1⟩ ⟨3, 3⟩
     [Op.move "e" ⟨1, 1⟩, Op.move "e" ⟨2, 1⟩, Op.move "e" ⟨3, 1⟩] "e" expDead (by decide)⟩

/-! ## Moves against a completed exploration -/

/-- Claim C7 (amended): the move operation never consults isComplete; a
move naming a completed exploration whose target is walkable and unvisited
(and which is not the root sentinel case) succeeds and mutates the
exploration, appending the target to its path and updating its current
position. -/
theorem terminal_move_not_rejected (g : Game) (id : String) (p : Position)
    (hw : isWalkable g p = true) (hc : isCollision g p = false)
    (hcomp : (lookupExp g.explorations id).map Exploration.isComplete = some true)
    (hsent : ¬(id = "root" ∧ p.x = 1 ∧ p.y = 1 ∧
      (lookupExp g.explorations id).map (fun e => e.pathPositions.length) = some 1)) :
    (moveExploration g id p).2.success = true ∧
    (lookupExp (moveExploration g id p).1.explorations id).map Exploration.pathPositions =
      (lookupExp g.explorations id).map (fun e => e.pathPositions ++ [p]) ∧
    (lookupExp (moveExploration g id p).1.explorations id).map Exploration.currentPosition =
      some p := by
  obtain ⟨e, he, -⟩ : ∃ e, lookupExp g.explorations id = some e ∧ e.isComplete = true := by
    cases hle : lookupExp g.explorations id with
    | none => rw [hle] at hcomp; simp at hcomp
    | some e => rw [hle] at hcomp; exact ⟨e, rfl, by simpa using hcomp⟩
  have hsent2 : ¬(id = "root" ∧ p.x = 1 ∧ p.y = 1 ∧ e.pathPositions.length = 1) := by
    rintro ⟨h1, h2, h3, h4⟩
    exact hsent ⟨h1, h2, h3, by rw [he]; simp [h4]⟩
  unfold moveExploration
  dsimp only
  rw [he]
  simp only [hw, hc, hsent2]
  repeat' split
  all_goals simp_all [lookupExp_setExp_self]

/-- Witness: the completed (dead) exploration e of gameE3 is moved to the
walkable unvisited cell (1,3); the move succeeds and mutates e. -/
theorem terminal_move_not_rejected_witness :
    (moveExploration gameE3 "e" ⟨1, 3⟩).2.success = true ∧
    (lookupExp (moveExploration gameE3 "e" ⟨1, 3⟩).1.explorations "e").map
        Exploration.pathPositions =
      (lookupExp gameE3.explorations "e").map (fun e => e.pathPositions ++ [⟨1, 3⟩]) ∧
    (lookupExp (moveExploration gameE3 "e" ⟨1, 3⟩).1.explorations "e").map
        Exploration.currentPosition = some ⟨1, 3⟩ :=
  terminal_move_not_rejected gameE3 "e" ⟨1, 3⟩ (by decide) (by decide) (by decide) (by decide)

/-- Counterexample to claim C7 as stated: in gameE3 the exploration e is
complete (it died at the dead end (3,1)), yet a further move naming e is
not rejected: it succeeds with status dead_end and mutates the path and
the current position of e. -/
theorem terminal_move_counterexample :
    (lookupExp gameE3.explorations "e").map Exploration.isComplete = some true ∧
    (lookupExp gameE3.explorations "e").map Exploration.isDead = some true ∧
    (lookupExp gameE3.explorations "e").map Exploration.pathPositions =
      some [⟨1, 1⟩, ⟨2, 1⟩, ⟨3, 1⟩] ∧
    (moveExploration gameE3 "e" ⟨1, 3⟩).2.success = true ∧
    (moveExploration gameE3 "e" ⟨1, 3⟩).2.newStatus = "dead_end" ∧
    (lookupExp (moveExploration gameE3 "e" ⟨1, 3⟩).1.explorations "e").map
        Exploration.pathPositions = some [⟨1, 1⟩, ⟨2, 1⟩, ⟨3, 1⟩, ⟨1, 3⟩] ∧
    (lookupExp (moveExploration gameE3 "e" ⟨1, 3⟩).1.explorations "e").map
        Exploration.currentPosition = some ⟨1, 3⟩ := by decide

/-! ## The root sentinel branch -/

/-- Claim C8 (amended): when exploration root exists with a path of length
1, a move of root to (1,1) reaches the sentinel branch only when (1,1) is
still unvisited, and then returns continue marking (1,1) visited without
touching the exploration map; when (1,1) is already visited — in
particular for a true duplicate of the first move that created root at
(1,1) — the call returns collision instead. -/
theorem root_sentinel_behavior (g : Game)
    (hlen : (lookupExp g.explorations "root").map (fun e => e.pathPositions.length) = some 1)
    (hw : isWalkable g ⟨1, 1⟩ = true) :
    (isCollision g ⟨1, 1⟩ = false →
      moveExploration g "root" ⟨1, 1⟩ =
        ({ g with globalVisited := insertPos g.globalVisited ⟨1, 1⟩ },
         ⟨true, "Root exploration started at start position", "continue"⟩)) ∧
    (isCollision g ⟨1, 1⟩ = true →
      moveExploration g "root" ⟨1, 1⟩ =
        (g, ⟨false, "Position already explored (collision)", "collision"⟩)) := by
  obtain ⟨e, he, hlen1⟩ :
      ∃ e, lookupExp g.explorations "root" = some e ∧ e.pathPositions.length = 1 := by
    cases hle : lookupExp g.explorations "root" with
    | none => rw [hle] at hlen; simp at hlen
    | some e => rw [hle] at hlen; exact ⟨e, rfl, by simpa using hlen⟩
  constructor
  · intro hc
    unfold moveExploration
    rw [he]
    simp [hw, hc, hlen1]
  · intro hc
    unfold moveExploration
    simp [hw, hc]

/-- Witness for both sentinel outcomes: on sideGame (root created at (3,1),
(1,1) unvisited) the sentinel answers continue; on rootGame (root created
at (1,1), so (1,1) is visited) the duplicate call collides. -/
theorem root_sentinel_behavior_witness :
    moveExploration sideGame "root" ⟨1, 1⟩ =
      ({ sideGame with globalVisited := insertPos sideGame.globalVisited ⟨1, 1⟩ },
       ⟨true, "Root exploration started at start position", "continue"⟩) ∧
    moveExploration rootGame "root" ⟨1, 1⟩ =
      (rootGame, ⟨false, "Position already explored (collision)", "collision"⟩) :=
  ⟨(root_sentinel_behavior sideGame (by decide) (by decide)).1 (by decide),
   (root_sentinel_behavior rootGame (by decide) (by decide)).2 (by decide)⟩

/-- Counterexample to claim C8 as stated: root was created by its first
move at its start cell (1,1) with path length 1; the duplicate first-move
call targeting root's start cell returns collision, not continue. -/
theorem duplicate_first_move_counterexample :
    (lookupExp rootGame.explorations "root").map Exploration.startPosition =
      some ⟨1, 1⟩ ∧
    (lookupExp rootGame.explorations "root").map (fun e => e.pathPositions.length) =
      some 1 ∧
    (moveExploration rootGame "root" ⟨1, 1⟩).2.newStatus = "collision" ∧
    (moveExploration rootGame "root" ⟨1, 1⟩).2.success = false ∧
    ("collision" : String) ≠ "continue" := by decide

/-! ## The display classifier -/

/-- Claim C2 (amended): for an internal node that did not find the goal,
the classifier keys each direct child by the child's own immediate color —
winner flag, terminal death, or the child's own colorSlot modulo the
palette size — one level deep only, not by the child's recursively
resolved class: if every direct child carries the same immediate key the
parent takes that key's style, and if two children differ the parent keeps
its own colorSlot style. When the direct children are themselves plain
leaves, the immediate key coincides with the child's own resolved class,
which gives the two-level inheritance the spec's test describes. -/
theorem classify_one_level (g : Game) (e c : Exploration) (cs : List Exploration)
    (hng : e.foundGoal = false)
    (hch : getChildExplorations g e.id = c :: cs) :
    ((∀ ce ∈ c :: cs, childColorKey g ce = childColorKey g c) →
      getExplorationDisplayColorAndStyle g e = keyStyle (childColorKey g c)) ∧
    ((∃ ce ∈ c :: cs, childColorKey g ce ≠ childColorKey g c) →
      getExplorationDisplayColorAndStyle g e =
        (segmentColors.getD
          (Int.tmod e.fixedColorIndex (segmentColors.length : Int)).toNat ⟨0, 0, 0, 0⟩,
         2, 9/10, 5)) ∧
    (∀ ce ∈ c :: cs, ce.foundGoal = false → ce.isDead = false →
      getChildExplorations g ce.id = [] →
      getExplorationDisplayColorAndStyle g ce = keyStyle (childColorKey g ce)) := by
  refine ⟨?_, ?_, ?_⟩
  · intro hall
    have hall2 : cs.all (fun ce => decide (childColorKey g ce = childColorKey g c)) = true := by
      rw [List.all_eq_true]
      intro ce hce
      simpa using hall ce (List.mem_cons_of_mem _ hce)
    unfold getExplorationDisplayColorAndStyle
    rw [hch]
    simp only [hng, Bool.false_eq_true, if_false, List.length_cons, hall2, if_true]
    cases hk : childColorKey g c <;> simp [keyStyle]
  · intro hex
    have hall2 : cs.all (fun ce => decide (childColorKey g ce = childColorKey g c)) = false := by
      obtain ⟨ce, hce, hne⟩ := hex
      rcases List.mem_cons.mp hce with rfl | hce2
      · exact absurd rfl hne
      · rw [List.all_eq_false]
        exact ⟨ce, hce2, by simpa using hne⟩
    unfold getExplorationDisplayColorAndStyle
    rw [hch]
    simp only [hng, Bool.false_eq_true, if_false, List.length_cons, hall2]
    simp
  · intro ce hce hg hd hleaf
    unfold getExplorationDisplayColorAndStyle childColorKey
    rw [hleaf]
    simp [hg, hd, keyStyle]

/-- Witness for the one-level classifier rule on the concrete forest: the
internal node c1 (whose only child is the leaf l1 of slot 3) inherits
palette class 3, and the leaf's own resolution agrees with its key. -/
theorem classify_one_level_witness :
    ((∀ ce ∈ [mkExp "l1" (some "c1") 3],
        childColorKey forest3 ce = childColorKey forest3 (mkExp "l1" (some "c1") 3)) →
      getExplorationDisplayColorAndStyle forest3 (mkExp "c1" (some "root") 1) =
        keyStyle (childColorKey forest3 (mkExp "l1" (some "c1") 3))) ∧
    ((∃ ce ∈ [mkExp "l1" (some "c1") 3],
        childColorKey forest3 ce ≠ childColorKey forest3 (mkExp "l1" (some "c1") 3)) →
      getExplorationDisplayColorAndStyle forest3 (mkExp "c1" (some "root") 1) =
        (segmentColors.getD
          (Int.tmod (mkExp "c1" (some "root") 1).fixedColorIndex
            (segmentColors.length : Int)).toNat ⟨0, 0, 0, 0⟩,
         2, 9/10, 5)) ∧
    (∀ ce ∈ [mkExp "l1" (some "c1") 3], ce.foundGoal = false → ce.isDead = false →
      getChildExplorations forest3 ce.id = [] →
      getExplorationDisplayColorAndStyle forest3 ce = keyStyle (childColorKey forest3 ce)) :=
  classify_one_level forest3 (mkExp "c1" (some "root") 1) (mkExp "l1" (some "c1") 3) []
    (by decide) (by decide)

/-- Counterexample to claim C2 as stated: in the three-level forest3 all
leaves below the root (l1 and l2, both of slot 3) resolve to palette class
3, and so do both intermediate nodes c1 and c2, yet the root resolves to
its own colorSlot class 0: the classifier keys the direct children c1 and
c2 by their own colorSlots 1 and 2 — not by their resolved classes — sees
a disagreement, and falls back to the root's own class instead of the
leaves' shared class. -/
theorem classify_recursive_counterexample :
    (getExplorationDisplayColorAndStyle forest3 (mkExp "l1" (some "c1") 3)).1 =
      segmentColors.getD 3 ⟨0, 0, 0, 0⟩ ∧
    (getExplorationDisplayColorAndStyle forest3 (mkExp "l2" (some "c2") 3)).1 =
      segmentColors.getD 3 ⟨0, 0, 0, 0⟩ ∧
    (getExplorationDisplayColorAndStyle forest3 (mkExp "c1" (some "root") 1)).1 =
      segmentColors.getD 3 ⟨0, 0, 0, 0⟩ ∧
    (getExplorationDisplayColorAndStyle forest3 (mkExp "c2" (some "root") 2)).1 =
      segmentColors.getD 3 ⟨0, 0, 0, 0⟩ ∧
    (getExplorationDisplayColorAndStyle forest3 (mkExp "root" none 0)).1 =
      segmentColors.getD 0 ⟨0, 0, 0, 0⟩ ∧
    segmentColors.getD 0 ⟨0, 0, 0, 0⟩ ≠ segmentColors.getD 3 ⟨0, 0, 0, 0⟩ := by
  decide

/-! ## Out-of-bounds safety -/

theorem move_blocked (g : Game) (id : String) (p : Position)
    (hw : isWalkable g p = false) :
    moveExploration g id p = (g, ⟨false, "Position is not walkable", "blocked"⟩) := by
  unfold moveExploration
  simp [hw]

theorem applyOp_static (g : Game) (op : Op) :
    (applyOp g op).maze = g.maze ∧ (applyOp g op).width = g.width ∧
    (applyOp g op).height = g.height := by
  cases op with
  | move id pos =>
    obtain ⟨h1, h2, h3, -, -⟩ := move_static g id pos
    exact ⟨h1, h2, h3⟩
  | reset => exact ⟨rfl, rfl, rfl⟩

theorem runOps_static (g : Game) (ops : List Op) :
    (runOps g ops).maze = g.maze ∧ (runOps g ops).width = g.width ∧
    (runOps g ops).height = g.height := by
  induction ops generalizing g with
  | nil => exact ⟨rfl, rfl, rfl⟩
  | cons op rest ih =>
    obtain ⟨h1, h2, h3⟩ := ih (applyOp g op)
    obtain ⟨a1, a2, a3⟩ := applyOp_static g op
    exact ⟨h1.trans a1, h2.trans a2, h3.trans a3⟩

theorem isWalkable_oob (g : Game) (pos : Position)
    (h : pos.x < 0 ∨ pos.x ≥ g.width ∨ pos.y < 0 ∨ pos.y ≥ g.height) :
    isWalkable g pos = false := by
  unfold isWalkable
  rw [if_pos h]

theorem cellAt?_getD (maze : List (List CellType)) (pos : Position)
    (hx : 0 ≤ pos.x) (hy : 0 ≤ pos.y) :
    (cellAt? maze pos).getD WALL = (maze.getD pos.y.toNat []).getD pos.x.toNat WALL := by
  unfold cellAt?
  rw [if_neg (by omega)]
  simp only [List.get?_eq_getElem?, List.getD_eq_getElem?_getD]
  cases hrow : maze[pos.y.toNat]? with
  | none => simp [hrow]
  | some row => simp [hrow]

theorem isWalkable_border (g : Game) (W H : Nat) (hW : g.width = (W : Int))
    (hH : g.height = (H : Int)) (hb : borderWall g.maze W H) (q : Position)
    (hq : q.x = 0 ∨ q.x = (W : Int) - 1 ∨ q.y = 0 ∨ q.y = (H : Int) - 1) :
    isWalkable g q = false := by
  unfold isWalkable
  split
  · rfl
  · rename_i hin
    rw [hW, hH] at hin
    push_neg at hin
    obtain ⟨h1, h2, h3, h4⟩ := hin
    have hwall : (g.maze.getD q.y.toNat []).getD q.x.toNat WALL = WALL := by
      apply hb
      · exact List.mem_range.mpr (by omega)
      · exact List.mem_range.mpr (by omega)
      · omega
    rw [cellAt?_getD g.maze q h1 h3, hwall]
    simp

theorem neighbor_oob_wall (g : Game) (W H : Nat) (hW : g.width = (W : Int))
    (hH : g.height = (H : Int)) (hb : borderWall g.maze W H) (pos : Position)
    (hoob : pos.x < 0 ∨ pos.x ≥ (W : Int) ∨ pos.y < 0 ∨ pos.y ≥ (H : Int))
    (d : Direction) (hd : d ∈ fourDirections) :
    isWalkable g (pos.add d) = false := by
  by_cases hin : (pos.add d).x < 0 ∨ (pos.add d).x ≥ g.width ∨
      (pos.add d).y < 0 ∨ (pos.add d).y ≥ g.height
  · exact isWalkable_oob g _ hin
  · rw [hW, hH] at hin
    push_neg at hin
    apply isWalkable_border g W H hW hH hb
    fin_cases hd <;>
      simp only [Position.add, UP, DOWN, LEFT, RIGHT] at hin ⊢ <;> omega

/-- Claim C9: queryStatus and move are total over every integer position.
The walkability test rejects an out-of-bounds position before any grid
access, and the grid access it performs for an in-bounds position is in
range for a well-formed grid; an out-of-bounds move returns blocked and
changes nothing, and an out-of-bounds status query reports isExplored =
false with empty available directions and moves rather than failing. -/
theorem out_of_bounds_safety (maze : List (List CellType)) (W H : Nat) (s gl : Position)
    (ops : List Op) (id : String) (pos : Position)
    (hdim : maze.length = H ∧ ∀ row ∈ maze, row.length = W)
    (hb : borderWall maze W H)
    (hoob : pos.x < 0 ∨ pos.x ≥ (W : Int) ∨ pos.y < 0 ∨ pos.y ≥ (H : Int)) :
    (∀ q : Position, 0 ≤ q.x → q.x < (W : Int) → 0 ≤ q.y → q.y < (H : Int) →
      (cellAt? maze q).isSome = true) ∧
    isWalkable (runOps (initGame maze W H s gl) ops) pos = false ∧
    moveExploration (runOps (initGame maze W H s gl) ops) id pos =
      (runOps (initGame maze W H s gl) ops,
       ⟨false, "Position is not walkable", "blocked"⟩) ∧
    (getMazeStatus (runOps (initGame maze W H s gl) ops) pos).isExplored = false ∧
    (getMazeStatus (runOps (initGame maze W H s gl) ops) pos).availableDirections = [] ∧
    (getMazeStatus (runOps (initGame maze W H s gl) ops) pos).availableMoves = [] := by
  obtain ⟨hlen, hrows⟩ := hdim
  obtain ⟨hm, hw, hh⟩ := runOps_static (initGame maze W H s gl) ops
  have hm2 : (runOps (initGame maze W H s gl) ops).maze = maze := hm
  have hw2 : (runOps (initGame maze W H s gl) ops).width = (W : Int) := hw
  have hh2 : (runOps (initGame maze W H s gl) ops).height = (H : Int) := hh
  have hbg : borderWall (runOps (initGame maze W H s gl) ops).maze W H := by
    rw [hm2]; exact hb
  have hwalk : isWalkable (runOps (initGame maze W H s gl) ops) pos = false := by
    apply isWalkable_oob
    rw [hw2, hh2]
    exact hoob
  have hOK : VisitedOK (runOps (initGame maze W H s gl) ops) :=
    visitedOK_runOps _ ops (visitedOK_initGame maze W H s gl)
  have hnv : pos ∉ (runOps (initGame maze W H s gl) ops).globalVisited := by
    intro hmem
    have := hOK pos hmem
    rw [hwalk] at this
    exact Bool.false_ne_true this
  have hdirs : getValidDirections (runOps (initGame maze W H s gl) ops) pos = [] := by
    have hUP := neighbor_oob_wall _ W H hw2 hh2 hbg pos hoob UP (by simp [fourDirections])
    have hDOWN := neighbor_oob_wall _ W H hw2 hh2 hbg pos hoob DOWN (by simp [fourDirections])
    have hLEFT := neighbor_oob_wall _ W H hw2 hh2 hbg pos hoob LEFT (by simp [fourDirections])
    have hRIGHT := neighbor_oob_wall _ W H hw2 hh2 hbg pos hoob RIGHT
      (by simp [fourDirections])
    simp [getValidDirections, fourDirections, hUP, hDOWN, hLEFT, hRIGHT]
  refine ⟨?_, hwalk, move_blocked _ id pos hwalk, ?_, ?_, ?_⟩
  · intro q hx1 hx2 hy1 hy2
    unfold cellAt?
    rw [if_neg (by omega)]
    have hylt : q.y.toNat < maze.length := by omega
    cases hrow : maze.get? q.y.toNat with
    | none =>
      rw [List.get?_eq_none] at hrow
      omega
    | some row =>
      have hrlen : row.length = W := hrows row (List.get?_mem hrow)
      have hxlt : q.x.toNat < row.length := by omega
      cases hcell : row.get? q.x.toNat with
      | none =>
        rw [List.get?_eq_none] at hcell
        omega
      | some c =>
        rw [List.get?_eq_getElem?] at hcell
        simp [hrow, hcell]
  · simp [getMazeStatus, hnv]
  · simp [getMazeStatus, hdirs]
  · simp [getMazeStatus, hdirs]

/-- Witness for out-of-bounds safety on the concrete 5-by-5 game after one
move: the position (-1, 2) is out of bounds, blocks, and queries empty. -/
theorem out_of_bounds_safety_witness :
    (∀ q : Position, 0 ≤ q.x → q.x < (5 : Int) → 0 ≤ q.y → q.y < (5 : Int) →
      (cellAt? mazeB q).isSome = true) ∧
    isWalkable (runOps (initGame mazeB 5 5 ⟨1, 1⟩ ⟨3, 3⟩) [Op.move "root" ⟨1, 1⟩])
      ⟨-1, 2⟩ = false ∧
    moveExploration (runOps (initGame mazeB 5 5 ⟨1, 1⟩ ⟨3, 3⟩) [Op.move "root" ⟨1, 1⟩])
        "z" ⟨-1, 2⟩ =
      (runOps (initGame mazeB 5 5 ⟨1, 1⟩ ⟨3, 3⟩) [Op.move "root" ⟨1, 1⟩],
       ⟨false, "Position is not walkable", "blocked"⟩) ∧
    (getMazeStatus (runOps (initGame mazeB 5 5 ⟨1, 1⟩ ⟨3, 3⟩) [Op.move "root" ⟨1, 1⟩])
      ⟨-1, 2⟩).isExplored = false ∧
    (getMazeStatus (runOps (initGame mazeB 5 5 ⟨1, 1⟩ ⟨3, 3⟩) [Op.move "root" ⟨1, 1⟩])
      ⟨-1, 2⟩).availableDirections = [] ∧
    (getMazeStatus (runOps (initGame mazeB 5 5 ⟨1, 1⟩ ⟨3, 3⟩) [Op.move "root" ⟨1, 1⟩])
      ⟨-1, 2⟩).availableMoves = [] :=
  out_of_bounds_safety mazeB 5 5 ⟨1, 1⟩ ⟨3, 3⟩ [Op.move "root" ⟨1, 1⟩] "z" ⟨-1, 2⟩
    (by constructor <;> decide) (by unfold borderWall; decide) (by decide)

/-! ## The loop-opening pass -/

theorem loopInner_eq (W H : Nat) (g : GGrid) (x y : Int) (ds : List Direction) :
    loopInner W H g x y ds =
      if ∃ d ∈ ds, 0 ≤ x + d.x ∧ x + d.x < (W : Int) ∧ 0 ≤ y + d.y ∧ y + d.y < (H : Int) ∧
          gget g (x + d.x) (y + d.y) = PATH
        then gset g x y PATH else g := by
  induction ds with
  | nil => simp [loopInner]
  | cons d ds ih =>
    unfold loopInner
    dsimp only
    by_cases hd : 0 ≤ x + d.x ∧ x + d.x < (W : Int) ∧ 0 ≤ y + d.y ∧ y + d.y < (H : Int) ∧
        gget g (x + d.x) (y + d.y) = PATH
    · rw [if_pos hd, if_pos ⟨d, List.mem_cons_self d ds, hd⟩]
    · rw [if_neg hd, ih]
      by_cases he : ∃ e ∈ ds, 0 ≤ x + e.x ∧ x + e.x < (W : Int) ∧ 0 ≤ y + e.y ∧
          y + e.y < (H : Int) ∧ gget g (x + e.x) (y + e.y) = PATH
      · rw [if_pos he]
        obtain ⟨e, hm, hp⟩ := he
        rw [if_pos ⟨e, List.mem_cons_of_mem _ hm, hp⟩]
      · rw [if_neg he, if_neg]
        rintro ⟨e, hm, hp⟩
        rcases List.mem_cons.mp hm with rfl | hm2
        · exact hd hp
        · exact he ⟨e, hm2, hp⟩

theorem loopIter_rng (W H : Nat) (g : GGrid) (rng : List Nat) :
    (loopIter W H g rng).2 = rng.drop 2 := by
  unfold loopIter
  dsimp only
  rw [← List.drop_one, ← List.drop_one, List.drop_drop]

theorem loopOpen_rng (W H : Nat) (g : GGrid) (rng : List Nat) :
    (loopOpen W H g rng).2 = rng.drop (2 * (W * H / 30)) := by
  unfold loopOpen
  generalize W * H / 30 = n
  induction n with
  | zero => simp
  | succ n ih =>
    rw [List.range_succ, List.foldl_append]
    dsimp only [List.foldl_cons, List.foldl_nil]
    rw [loopIter_rng, ih, List.drop_drop]
    have harith : 2 * n + 2 = 2 * (n + 1) := by omega
    rw [harith]

/-- Claim C6 (amended): the loop-opening pass performs exactly
floor(W*H/30) iterations, consuming two random draws per iteration; every
iteration picks the cell (2 + 2k, 2 + 2j) — both coordinates even, so
never an odd-odd lattice cell — with k below (W-4)/2 and j below (H-4)/2
whenever those bounds are positive; and an iteration converts its picked
cell to PATH exactly when at least one of the four adjacent in-bounds
cells is already PATH, leaving the grid unchanged otherwise. -/
theorem loop_opening_pass (W H : Nat) (g : GGrid) (rng : List Nat) :
    (loopOpen W H g rng).2 = rng.drop (2 * (W * H / 30)) ∧
    (∀ rng0 : List Nat, ∃ k j : Nat,
      pickedCell W H rng0 = (2 + (k : Int) * 2, 2 + (j : Int) * 2) ∧
      ((W - 4) / 2 ≠ 0 → k < (W - 4) / 2) ∧ ((H - 4) / 2 ≠ 0 → j < (H - 4) / 2) ∧
      (pickedCell W H rng0).1 % 2 = 0 ∧ (pickedCell W H rng0).2 % 2 = 0) ∧
    (∀ (g0 : GGrid) (rng0 : List Nat),
      (loopIter W H g0 rng0).1 =
        if ∃ d ∈ loopAdjDirections,
            0 ≤ (pickedCell W H rng0).1 + d.x ∧ (pickedCell W H rng0).1 + d.x < (W : Int) ∧
            0 ≤ (pickedCell W H rng0).2 + d.y ∧ (pickedCell W H rng0).2 + d.y < (H : Int) ∧
            gget g0 ((pickedCell W H rng0).1 + d.x) ((pickedCell W H rng0).2 + d.y) = PATH
          then gset g0 (pickedCell W H rng0).1 (pickedCell W H rng0).2 PATH
          else g0) := by
  refine ⟨loopOpen_rng W H g rng, ?_, ?_⟩
  · intro rng0
    refine ⟨rng0.headD 0 % ((W - 4) / 2), rng0.tail.headD 0 % ((H - 4) / 2), rfl, ?_, ?_, ?_, ?_⟩
    · intro h
      exact Nat.mod_lt _ (Nat.pos_of_ne_zero h)
    · intro h
      exact Nat.mod_lt _ (Nat.pos_of_ne_zero h)
    · simp only [pickedCell]
      omega
    · simp only [pickedCell]
      omega
  · intro g0 rng0
    unfold loopIter
    dsimp only
    rw [loopInner_eq]

/-- Counterexample to claim C6 as stated: at the generated 31-by-31 size
the pass runs 32 iterations, and with the random draws 0, 0 the first
iteration picks the cell (2, 2) — both coordinates even, not a lattice
cell with odd coordinates — and converts it to PATH on the grid gridEx6
whose cell (2, 3) is PATH. -/
theorem loop_pick_even_counterexample :
    31 * 31 / 30 = 32 ∧
    pickedCell 31 31 [0, 0] = (2, 2) ∧
    ¬((2 : Int) % 2 = 1 ∧ (2 : Int) % 2 = 1) ∧
    gget gridEx6 2 2 = WALL ∧
    gget gridEx6 2 3 = PATH ∧
    gget (loopIter 31 31 gridEx6 [0, 0]).1 2 2 = PATH := by
  decide

/-! ## Grid read and write lemmas for the generator -/

theorem getD_set {α : Type} (l : List α) (i j : Nat) (v d : α) :
    (l.set i v).getD j d = if i = j ∧ j < l.length then v else l.getD j d := by
  induction l generalizing i j with
  | nil => simp
  | cons a l ih =>
    cases i with
    | zero =>
      cases j with
      | zero => simp
      | succ j => simp
    | succ i =>
      cases j with
      | zero => simp
      | succ j =>
        show (a :: l.set i v).getD (j + 1) d = _
        simp only [List.getD_cons_succ, List.length_cons, ih]
        by_cases hij : i = j ∧ j < l.length
        · rw [if_pos hij, if_pos (by omega)]
        · rw [if_neg hij, if_neg (by omega)]

theorem gget_gset_cases (g : GGrid) (x y a b : Int) (c : CellType) :
    gget (gset g x y c) a b = gget g a b ∨
    (a = x ∧ b = y ∧ gget (gset g x y c) a b = c) := by
  unfold gget gset
  by_cases hxy : 0 ≤ x ∧ 0 ≤ y
  · rw [if_pos hxy]
    by_cases hab : 0 ≤ a ∧ 0 ≤ b
    · rw [if_pos hab, if_pos hab, getD_set]
      by_cases hout : y.toNat = b.toNat ∧ b.toNat < g.length
      · have hby : b = y := by omega
        subst hby
        rw [if_pos hout, getD_set]
        by_cases hinn : x.toNat = a.toNat ∧ a.toNat < (g.getD b.toNat []).length
        · have hax : a = x := by omega
          right
          exact ⟨hax, rfl, by rw [if_pos hinn]⟩
        · left
          rw [if_neg hinn]
      · left
        rw [if_neg hout]
    · rw [if_neg hab, if_neg hab]
      exact Or.inl rfl
  · rw [if_neg hxy]
    exact Or.inl rfl

theorem gget_gset_ne (g : GGrid) (x y a b : Int) (c : CellType)
    (h : ¬(a = x ∧ b = y)) : gget (gset g x y c) a b = gget g a b := by
  rcases gget_gset_cases g x y a b c with heq | ⟨h1, h2, -⟩
  · exact heq
  · exact absurd ⟨h1, h2⟩ h

theorem gget_gset_self (g : GGrid) (W H : Nat) (x y : Int) (c : CellType)
    (hdims : GridDims g W H) (hx0 : 0 ≤ x) (hxW : x < (W : Int))
    (hy0 : 0 ≤ y) (hyH : y < (H : Int)) :
    gget (gset g x y c) x y = c := by
  obtain ⟨hlen, hrows⟩ := hdims
  have hylt : y.toNat < g.length := by omega
  have hrowlen : (g.getD y.toNat []).length = W := by
    apply hrows
    rw [List.getD_eq_getElem g [] hylt]
    exact List.getElem_mem hylt
  unfold gget gset
  rw [if_pos ⟨hx0, hy0⟩, if_pos ⟨hx0, hy0⟩, getD_set, if_pos ⟨rfl, hylt⟩, getD_set,
    if_pos ⟨rfl, by omega⟩]

theorem path_gset (g : GGrid) (x y a b : Int) (h : gget g a b = PATH) :
    gget (gset g x y PATH) a b = PATH := by
  rcases gget_gset_cases g x y a b PATH with heq | ⟨-, -, heq⟩
  · rw [heq]
    exact h
  · exact heq

theorem dims_gset (g : GGrid) (W H : Nat) (x y : Int) (c : CellType)
    (h : GridDims g W H) : GridDims (gset g x y c) W H := by
  obtain ⟨hlen, hrows⟩ := h
  unfold gset
  split
  · by_cases hy : y.toNat < g.length
    · refine ⟨by simp [hlen], ?_⟩
      intro row hrow
      rcases List.mem_or_eq_of_mem_set hrow with hmem | rfl
      · exact hrows row hmem
      · rw [List.length_set]
        apply hrows
        rw [List.getD_eq_getElem g [] hy]
        exact List.getElem_mem hy
    · rw [List.set_eq_of_length_le (by omega)]
      exact ⟨hlen, hrows⟩
  · exact ⟨hlen, hrows⟩

theorem dims_initialGrid (W H : Nat) : GridDims (initialGrid W H) W H := by
  refine ⟨by simp [initialGrid], ?_⟩
  intro row hrow
  rw [List.eq_of_mem_replicate hrow]
  simp

theorem dims_foldl_gset (L : List (Int × Int)) (g : GGrid) (W H : Nat)
    (h : GridDims g W H) :
    GridDims (L.foldl (fun acc c => gset acc c.1 c.2 PATH) g) W H := by
  induction L generalizing g with
  | nil => exact h
  | cons c0 L ih => exact ih _ (dims_gset g W H c0.1 c0.2 PATH h)

theorem dims_latticeInit (W H : Nat) (g : GGrid) (h : GridDims g W H) :
    GridDims (latticeInit W H g) W H :=
  dims_foldl_gset _ g W H h

theorem dims_carve (W H fuel : Nat) (g : GGrid) (stack visited : List Position)
    (rng : List Nat) (h : GridDims g W H) :
    GridDims (carve W H fuel g stack visited rng).1 W H := by
  induction fuel generalizing g stack visited rng with
  | zero => exact h
  | succ fuel ih =>
    unfold carve
    dsimp only
    split
    · exact h
    · split
      · exact ih _ _ _ _ h
      · exact ih _ _ _ _ (dims_gset _ _ _ _ _ _ h)

theorem dims_loopIter (W H : Nat) (g : GGrid) (rng : List Nat) (h : GridDims g W H) :
    GridDims (loopIter W H g rng).1 W H := by
  unfold loopIter
  dsimp only
  rw [loopInner_eq]
  split
  · exact dims_gset _ _ _ _ _ _ h
  · exact h

theorem dims_loopOpen (W H : Nat) (g : GGrid) (rng : List Nat) (h : GridDims g W H) :
    GridDims (loopOpen W H g rng).1 W H := by
  unfold loopOpen
  generalize W * H / 30 = n
  induction n with
  | zero => exact h
  | succ n ih =>
    rw [List.range_succ, List.foldl_append]
    dsimp only [List.foldl_cons, List.foldl_nil]
    exact dims_loopIter _ _ _ _ ih

theorem path_carve (W H fuel : Nat) (g : GGrid) (stack visited : List Position)
    (rng : List Nat) (a b : Int) (h : gget g a b = PATH) :
    gget (carve W H fuel g stack visited rng).1 a b = PATH := by
  induction fuel generalizing g stack visited rng with
  | zero => exact h
  | succ fuel ih =>
    unfold carve
    dsimp only
    split
    · exact h
    · split
      · exact ih _ _ _ _ h
      · exact ih _ _ _ _ (path_gset _ _ _ _ _ h)

theorem path_loopIter (W H : Nat) (g : GGrid) (rng : List Nat) (a b : Int)
    (h : gget g a b = PATH) : gget (loopIter W H g rng).1 a b = PATH := by
  unfold loopIter
  dsimp only
  rw [loopInner_eq]
  split
  · exact path_gset _ _ _ _ _ h
  · exact h

theorem path_loopOpen (W H : Nat) (g : GGrid) (rng : List Nat) (a b : Int)
    (h : gget g a b = PATH) : gget (loopOpen W H g rng).1 a b = PATH := by
  unfold loopOpen
  generalize W * H / 30 = n
  induction n with
  | zero => exact h
  | succ n ih =>
    rw [List.range_succ, List.foldl_append]
    dsimp only [List.foldl_cons, List.foldl_nil]
    exact path_loopIter _ _ _ _ _ _ ih

theorem path_foldl_gset (L : List (Int × Int)) (g : GGrid) (a b : Int)
    (h : gget g a b = PATH) :
    gget (L.foldl (fun acc c => gset acc c.1 c.2 PATH) g) a b = PATH := by
  induction L generalizing g with
  | nil => exact h
  | cons c0 L ih => exact ih _ (path_gset _ _ _ _ _ h)

theorem mem_oddsUpTo (n : Nat) (x : Int) :
    x ∈ oddsUpTo n ↔ ∃ k : Nat, k < n ∧ k % 2 = 1 ∧ x = (k : Int) := by
  simp [oddsUpTo, List.mem_filter, List.mem_range, eq_comm]
  constructor
  · rintro ⟨k, ⟨h1, h2⟩, h3⟩
    exact ⟨k, h1, h2, h3⟩
  · rintro ⟨k, h1, h2, h3⟩
    exact ⟨k, ⟨h1, h2⟩, h3⟩

theorem mem_scanOrder (W H : Nat) (c : Int × Int) :
    c ∈ scanOrder W H ↔
      ∃ a b : Nat, a < W - 1 ∧ a % 2 = 1 ∧ b < H - 1 ∧ b % 2 = 1 ∧
        c = ((a : Int), (b : Int)) := by
  unfold scanOrder
  rw [List.mem_flatten]
  constructor
  · rintro ⟨l, hl, hc⟩
    rw [List.mem_map] at hl
    obtain ⟨y, hy, rfl⟩ := hl
    rw [List.mem_map] at hc
    obtain ⟨x, hx, rfl⟩ := hc
    rw [mem_oddsUpTo] at hx hy
    obtain ⟨a, ha1, ha2, rfl⟩ := hx
    obtain ⟨b, hb1, hb2, rfl⟩ := hy
    exact ⟨a, b, ha1, ha2, hb1, hb2, rfl⟩
  · rintro ⟨a, b, ha1, ha2, hb1, hb2, rfl⟩
    refine ⟨(oddsUpTo (W - 1)).map (fun x => (x, (b : Int))), ?_, ?_⟩
    · rw [List.mem_map]
      refine ⟨(b : Int), ?_, rfl⟩
      rw [mem_oddsUpTo]
      exact ⟨b, hb1, hb2, rfl⟩
    · rw [List.mem_map]
      refine ⟨(a : Int), ?_, rfl⟩
      rw [mem_oddsUpTo]
      exact ⟨a, ha1, ha2, rfl⟩

theorem latticeInit_path (W H : Nat) (g : GGrid) (hdims : GridDims g W H) :
    ∀ c ∈ scanOrder W H, gget (latticeInit W H g) c.1 c.2 = PATH := by
  have key : ∀ (L : List (Int × Int)) (g : GGrid), GridDims g W H →
      (∀ c ∈ L, 0 ≤ c.1 ∧ c.1 < (W : Int) ∧ 0 ≤ c.2 ∧ c.2 < (H : Int)) →
      ∀ c ∈ L, gget (L.foldl (fun acc c => gset acc c.1 c.2 PATH) g) c.1 c.2 = PATH := by
    intro L
    induction L with
    | nil =>
      intro g _ _ c hc
      cases hc
    | cons c0 L ih =>
      intro g hd hin c hc
      rw [List.foldl_cons]
      rcases List.mem_cons.mp hc with rfl | hc2
      · apply path_foldl_gset
        obtain ⟨h1, h2, h3, h4⟩ := hin c (List.mem_cons_self _ _)
        exact gget_gset_self g W H c.1 c.2 PATH hd h1 h2 h3 h4
      · exact ih (gset g c0.1 c0.2 PATH) (dims_gset _ _ _ _ _ _ hd)
          (fun q hq => hin q (List.mem_cons_of_mem _ hq)) c hc2
  intro c hc
  apply key (scanOrder W H) g hdims ?_ c hc
  intro q hq
  rw [mem_scanOrder] at hq
  obtain ⟨a, b, ha1, -, hb1, -, rfl⟩ := hq
  refine ⟨by positivity, ?_, by positivity, ?_⟩ <;> simp <;> omega

/-! ## Characterization of the goal-selection scan -/

theorem scanStep_foldl_spec (g : GGrid) (L : List (Int × Int)) (m : Int) (c : Position) :
    (L.foldl (scanStep g) (m, c) = (m, c) ∧
      ∀ p ∈ L, gget g p.1 p.2 = PATH → scanDist p.1 p.2 ≤ m) ∨
    (∃ L1 L2,
      L = L1 ++ ((L.foldl (scanStep g) (m, c)).2.x, (L.foldl (scanStep g) (m, c)).2.y) :: L2 ∧
      gget g (L.foldl (scanStep g) (m, c)).2.x (L.foldl (scanStep g) (m, c)).2.y = PATH ∧
      (L.foldl (scanStep g) (m, c)).1 =
        scanDist (L.foldl (scanStep g) (m, c)).2.x (L.foldl (scanStep g) (m, c)).2.y ∧
      m < (L.foldl (scanStep g) (m, c)).1 ∧
      (∀ p ∈ L1, gget g p.1 p.2 = PATH →
        scanDist p.1 p.2 < (L.foldl (scanStep g) (m, c)).1) ∧
      (∀ p ∈ L2, gget g p.1 p.2 = PATH →
        scanDist p.1 p.2 ≤ (L.foldl (scanStep g) (m, c)).1)) := by
  induction L generalizing m c with
  | nil => exact Or.inl ⟨rfl, by simp⟩
  | cons p L ih =>
    rw [List.foldl_cons]
    by_cases hp : gget g p.1 p.2 = PATH ∧ scanDist p.1 p.2 > m
    · have hstep : scanStep g (m, c) p = (scanDist p.1 p.2, ⟨p.1, p.2⟩) := by
        unfold scanStep
        rw [if_pos hp.1, if_pos hp.2]
      rw [hstep]
      rcases ih (scanDist p.1 p.2) ⟨p.1, p.2⟩ with
        ⟨heq, hbound⟩ | ⟨L1, L2, hsplit, hpath, hdist, hlt, hL1, hL2⟩
      · right
        rw [heq]
        exact ⟨[], L, by simp, hp.1, rfl, hp.2, by simp, hbound⟩
      · right
        refine ⟨p :: L1, L2, by rw [List.cons_append, ← hsplit], hpath, hdist, ?_, ?_, hL2⟩
        · exact lt_trans hp.2 hlt
        · intro q hq hqp
          rcases List.mem_cons.mp hq with rfl | hq2
          · exact hlt
          · exact hL1 q hq2 hqp
    · have hstep : scanStep g (m, c) p = (m, c) := by
        unfold scanStep
        by_cases hpa : gget g p.1 p.2 = PATH
        · rw [if_pos hpa, if_neg (by push_neg at hp; exact not_lt.mpr (hp hpa))]
        · rw [if_neg hpa]
      rw [hstep]
      rcases ih m c with ⟨heq, hbound⟩ | ⟨L1, L2, hsplit, hpath, hdist, hlt, hL1, hL2⟩
      · left
        rw [heq]
        refine ⟨rfl, ?_⟩
        intro q hq hqp
        rcases List.mem_cons.mp hq with rfl | hq2
        · push_neg at hp
          exact hp hqp
        · exact hbound q hq2 hqp
      · right
        refine ⟨p :: L1, L2, by rw [List.cons_append, ← hsplit], hpath, hdist, hlt, ?_, hL2⟩
        intro q hq hqp
        rcases List.mem_cons.mp hq with rfl | hq2
        · push_neg at hp
          exact lt_of_le_of_lt (hp hqp) hlt
        · exact hL1 q hq2 hqp

theorem goalScan_spec (W H : Nat) (g : GGrid)
    (hex : ∃ c0 ∈ scanOrder W H, gget g c0.1 c0.2 = PATH ∧ 0 < scanDist c0.1 c0.2) :
    ∃ L1 L2, scanOrder W H = L1 ++ ((goalScan W H g).x, (goalScan W H g).y) :: L2 ∧
      gget g (goalScan W H g).x (goalScan W H g).y = PATH ∧
      0 < scanDist (goalScan W H g).x (goalScan W H g).y ∧
      (∀ p ∈ L1, gget g p.1 p.2 = PATH →
        scanDist p.1 p.2 < scanDist (goalScan W H g).x (goalScan W H g).y) ∧
      (∀ p ∈ scanOrder W H, gget g p.1 p.2 = PATH →
        scanDist p.1 p.2 ≤ scanDist (goalScan W H g).x (goalScan W H g).y) := by
  unfold goalScan
  rcases scanStep_foldl_spec g (scanOrder W H) 0 ⟨(W : Int) - 2, (H : Int) - 2⟩ with
    ⟨heq, hbound⟩ | ⟨L1, L2, hsplit, hpath, hdist, hlt, hL1, hL2⟩
  · obtain ⟨c0, hc0, hp0, hd0⟩ := hex
    exact absurd (hbound c0 hc0 hp0) (by omega)
  · rw [hdist] at hlt hL1 hL2
    refine ⟨L1, L2, hsplit, hpath, hlt, hL1, ?_⟩
    intro p hp hpa
    rw [hsplit] at hp
    rcases List.mem_append.mp hp with hp1 | hp2
    · exact le_of_lt (hL1 p hp1 hpa)
    · rcases List.mem_cons.mp hp2 with rfl | hp3
      · exact le_refl _
      · exact hL2 p hp3 hpa

/-! ## The grid just before goal selection -/

theorem preGoal_path (w h : Nat) (rng : List Nat) (c : Int × Int)
    (hc : c ∈ scanOrder (roundOdd w) (roundOdd h)) (hne : ¬(c.1 = 1 ∧ c.2 = 1)) :
    gget (preGoal w h rng).1 c.1 c.2 = PATH := by
  unfold preGoal
  dsimp only
  rw [gget_gset_ne _ _ _ _ _ _ hne]
  apply path_loopOpen
  apply path_carve
  exact latticeInit_path (roundOdd w) (roundOdd h) (initialGrid (roundOdd w) (roundOdd h))
    (dims_initialGrid _ _) c hc

/-- Claim C5 (amended): whenever the rounded dimensions admit a scanned
lattice PATH cell other than the start — that is, when one rounded
dimension is at least 5 and both are at least 3 — the goal cell chosen by
generate lies in the row-major lattice scan order, has both coordinates
odd, is a PATH cell of the pre-selection grid, has Manhattan distance from
(1,1) maximal over all scanned PATH cells, and is the earliest scanned
cell attaining that maximum (every strictly earlier scanned PATH cell has
strictly smaller distance), for every seed. -/
theorem goal_farthest_scan (w h : Nat) (rng : List Nat)
    (h3w : 3 ≤ roundOdd w) (h3h : 3 ≤ roundOdd h)
    (h5 : 5 ≤ roundOdd w ∨ 5 ≤ roundOdd h) :
    ((generateMaze w h rng).goal.x, (generateMaze w h rng).goal.y) ∈
      scanOrder (roundOdd w) (roundOdd h) ∧
    (generateMaze w h rng).goal.x % 2 = 1 ∧
    (generateMaze w h rng).goal.y % 2 = 1 ∧
    gget (preGoal w h rng).1 (generateMaze w h rng).goal.x
      (generateMaze w h rng).goal.y = PATH ∧
    (∀ c ∈ scanOrder (roundOdd w) (roundOdd h),
      gget (preGoal w h rng).1 c.1 c.2 = PATH →
      scanDist c.1 c.2 ≤
        scanDist (generateMaze w h rng).goal.x (generateMaze w h rng).goal.y) ∧
    (∃ L1 L2,
      scanOrder (roundOdd w) (roundOdd h) =
        L1 ++ ((generateMaze w h rng).goal.x, (generateMaze w h rng).goal.y) :: L2 ∧
      ∀ c ∈ L1, gget (preGoal w h rng).1 c.1 c.2 = PATH →
        scanDist c.1 c.2 <
          scanDist (generateMaze w h rng).goal.x (generateMaze w h rng).goal.y) := by
  have hgoal : (generateMaze w h rng).goal =
      goalScan (roundOdd w) (roundOdd h) (preGoal w h rng).1 := rfl
  have hex : ∃ c0 ∈ scanOrder (roundOdd w) (roundOdd h),
      gget (preGoal w h rng).1 c0.1 c0.2 = PATH ∧ 0 < scanDist c0.1 c0.2 := by
    rcases h5 with h5w | h5h
    · refine ⟨(3, 1), ?_, ?_, ?_⟩
      · rw [mem_scanOrder]
        exact ⟨3, 1, by omega, by omega, by omega, by omega, rfl⟩
      · exact preGoal_path w h rng (3, 1) (by
          rw [mem_scanOrder]
          exact ⟨3, 1, by omega, by omega, by omega, by omega, rfl⟩) (by simp)
      · simp [scanDist, goAbs]
    · refine ⟨(1, 3), ?_, ?_, ?_⟩
      · rw [mem_scanOrder]
        exact ⟨1, 3, by omega, by omega, by omega, by omega, rfl⟩
      · exact preGoal_path w h rng (1, 3) (by
          rw [mem_scanOrder]
          exact ⟨1, 3, by omega, by omega, by omega, by omega, rfl⟩) (by simp)
      · simp [scanDist, goAbs]
  obtain ⟨L1, L2, hsplit, hpath, -, hL1, hmax⟩ :=
    goalScan_spec (roundOdd w) (roundOdd h) (preGoal w h rng).1 hex
  rw [← hgoal] at hsplit hpath hL1 hmax
  have hmem : ((generateMaze w h rng).goal.x, (generateMaze w h rng).goal.y) ∈
      scanOrder (roundOdd w) (roundOdd h) := by
    rw [hsplit]
    exact List.mem_append.mpr (Or.inr (List.mem_cons_self _ _))
  obtain ⟨a, b, -, ha2, -, hb2, hcoords⟩ := (mem_scanOrder _ _ _).mp hmem
  refine ⟨hmem, ?_, ?_, hpath, hmax, L1, L2, hsplit, hL1⟩
  · have hxa : (generateMaze w h rng).goal.x = (a : Int) := by
      have := congrArg Prod.fst hcoords
      simpa using this
    rw [hxa]
    omega
  · have hyb : (generateMaze w h rng).goal.y = (b : Int) := by
      have := congrArg Prod.snd hcoords
      simpa using this
    rw [hyb]
    omega

/-- Witness for the amended goal-selection theorem at the program's own
generation size 31 by 31 (any seed stream; here the empty one). -/
theorem goal_farthest_scan_witness :
    ((generateMaze 31 31 []).goal.x, (generateMaze 31 31 []).goal.y) ∈
      scanOrder (roundOdd 31) (roundOdd 31) ∧
    (generateMaze 31 31 []).goal.x % 2 = 1 ∧
    (generateMaze 31 31 []).goal.y % 2 = 1 ∧
    gget (preGoal 31 31 []).1 (generateMaze 31 31 []).goal.x
      (generateMaze 31 31 []).goal.y = PATH ∧
    (∀ c ∈ scanOrder (roundOdd 31) (roundOdd 31),
      gget (preGoal 31 31 []).1 c.1 c.2 = PATH →
      scanDist c.1 c.2 ≤
        scanDist (generateMaze 31 31 []).goal.x (generateMaze 31 31 []).goal.y) ∧
    (∃ L1 L2,
      scanOrder (roundOdd 31) (roundOdd 31) =
        L1 ++ ((generateMaze 31 31 []).goal.x, (generateMaze 31 31 []).goal.y) :: L2 ∧
      ∀ c ∈ L1, gget (preGoal 31 31 []).1 c.1 c.2 = PATH →
        scanDist c.1 c.2 <
          scanDist (generateMaze 31 31 []).goal.x (generateMaze 31 31 []).goal.y) :=
  goal_farthest_scan 31 31 [] (by decide) (by decide) (by decide)

/-- Counterexample to claim C5 as stated: at the degenerate size 3 by 3
the only lattice cell (1,1) holds the START mark when the scan runs, so no
scanned PATH cell exists at all, yet generate still chooses the fallback
goal (1,1) — which is not a lattice Path cell of the scanned grid. -/
theorem goal_degenerate_counterexample :
    (generateMaze 3 3 []).goal = ⟨1, 1⟩ ∧
    gget (preGoal 3 3 []).1 1 1 = START ∧
    START ≠ PATH ∧
    (∀ c ∈ scanOrder 3 3, gget (preGoal 3 3 []).1 c.1 c.2 ≠ PATH) := by
  decide

end Maze
